import Mathlib

/-!
Verification of the template-driven compositing engine of the
ranking-celebration-image-render-api repository.

The JavaScript source is shallowly embedded: pure functions become Lean
functions, the Express/canvas side effects become explicit state passing
over a raster-surface model, and fallible steps return `Except`.
The embedding follows `src/server.js`, `src/api/render.js` and
`src/api/template.js`; the node-canvas library (path fills, clipping,
image sampling) is modelled as an explicit pixel-level semantics, and
asset acquisition (filesystem reads, network fetches, image decoding)
is an environment of collaborator functions.

JavaScript numbers are modelled as rationals; the data mapping carries the
scalar payload values the endpoints substitute into strings.
-/

namespace RenderApi

/-! ## JavaScript scalar values and the request data mapping -/

/-- A scalar JSON value as found in the flat render-request data mapping
(`req.body`). -/
inductive Scalar where
  | s (v : String)
  | n (v : Int)
  | b (v : Bool)
  | null
deriving DecidableEq

/-- JavaScript string coercion of a scalar, as performed when
`String.prototype.replace` stringifies the replacer's return value. -/
def Scalar.toJsString : Scalar → String
  | .s v => v
  | .n v => toString v
  | .b true => ("true")
  | .b false => ("false")
  | .null => ("null")

/-- The request-scoped data mapping (`req.body`): identifier to scalar. -/
abbrev Data := List (String × Scalar)

/-- JavaScript property lookup `data[key]`: `none` models `undefined`. -/
def lookupData (data : Data) (k : String) : Option Scalar :=
  (data.find? (fun kv => kv.1 = k)).map (fun kv => kv.2)

/-- The replacement text for one `\x7b\x7bkey\x7d\x7d` token:
`data[key] ?? ""` followed by string coercion, i.e. the empty string when the
key is absent (`undefined`) or its value is `null`, and the JavaScript string
form of the value otherwise (from `src/server.js` line 55). -/
def substValue (data : Data) (k : String) : String :=
  match lookupData data k with
  | none => ("")
  | some Scalar.null => ("")
  | some v => v.toJsString

/-! ## The placeholder resolver

`resolvePlaceholders` in `src/server.js` (and, duplicated verbatim, in
`src/api/render.js`) is `value.replace(re, fn)` with the global regex
`\x7b\x7b\s*(\w+)\s*\x7d\x7d`.  The scan below reproduces the regex
engine's leftmost-match behaviour: at each position it attempts to match
one token, emits the replacement on success, and copies the character
verbatim otherwise. -/

/-- JavaScript `\w`: ASCII letters, digits and underscore. -/
def isWordChar (c : Char) : Bool :=
  c.isAlpha || c.isDigit || c == '_'

/-- JavaScript `\s`, restricted to the ASCII whitespace characters
(the Unicode space characters also matched by `\s` are not modelled). -/
def isSpaceJS (c : Char) : Bool :=
  c == ' ' || c == '\t' || c == '\n' || c == '\r' || c == '\x0b' || c == '\x0c'

/-- Try to match one `\x7b\x7b\s*(\w+)\s*\x7d\x7d` token at the head of the
input; returns the captured identifier and the input after the token. -/
def matchToken (l : List Char) : Option (String × List Char) :=
  match l with
  | c1 :: c2 :: rest =>
    if c1 = '\x7b' ∧ c2 = '\x7b' then
      let r1 := rest.dropWhile isSpaceJS
      let ident := r1.takeWhile isWordChar
      let r2 := (r1.dropWhile isWordChar).dropWhile isSpaceJS
      if ident = [] then none
      else
        match r2 with
        | d1 :: d2 :: rest2 =>
          if d1 = '\x7d' ∧ d2 = '\x7d' then some (⟨ident⟩, rest2) else none
        | _ => none
    else none
  | _ => none

/-- The global-replace scan over the character list.  The fuel argument is
only a structural-termination device: any fuel at least the list length
yields the scan of the whole input (`resolveList_fuel_eq`). -/
def resolveList (data : Data) : Nat → List Char → List Char
  | 0, l => l
  | _ + 1, [] => []
  | fuel + 1, c :: rest =>
    match matchToken (c :: rest) with
    | some (ident, rest2) => (substValue data ident).data ++ resolveList data fuel rest2
    | none => c :: resolveList data fuel rest

/-- `resolvePlaceholders` restricted to string values
(`src/server.js` lines 52-57). -/
def resolvePlaceholders (value : String) (data : Data) : String :=
  ⟨resolveList data value.data.length value.data⟩

/-- `resolvePlaceholders` on an arbitrary scalar: non-string inputs pass
through unchanged (`if (typeof value !== "string") return value`). -/
def resolvePlaceholdersScalar (value : Scalar) (data : Data) : Scalar :=
  match value with
  | .s str => .s (resolvePlaceholders str data)
  | other => other

/-! ### Helper lemmas about the scanner -/

theorem dropWhile_append_of_all {p : Char → Bool} {xs ys : List Char}
    (h : ∀ c ∈ xs, p c = true) :
    List.dropWhile p (xs ++ ys) = List.dropWhile p ys := by
  induction xs with
  | nil => rfl
  | cons a as ih =>
    have ha : p a = true := h a (List.mem_cons_self a as)
    simp only [List.cons_append, List.dropWhile, ha]
    exact ih (fun c hc => h c (List.mem_cons_of_mem a hc))

theorem dropWhile_head_neg {p : Char → Bool} {c : Char} {ys : List Char}
    (h : p c = false) :
    List.dropWhile p (c :: ys) = c :: ys := by
  simp [List.dropWhile, h]

theorem takeWhile_append_of_all {p : Char → Bool} {xs ys : List Char}
    (h : ∀ c ∈ xs, p c = true) :
    List.takeWhile p (xs ++ ys) = xs ++ List.takeWhile p ys := by
  induction xs with
  | nil => rfl
  | cons a as ih =>
    have ha : p a = true := h a (List.mem_cons_self a as)
    simp only [List.cons_append, List.takeWhile, ha, List.append_eq]
    rw [ih (fun c hc => h c (List.mem_cons_of_mem a hc))]

theorem takeWhile_head_neg {p : Char → Bool} {c : Char} {ys : List Char}
    (h : p c = false) :
    List.takeWhile p (c :: ys) = [] := by
  simp [List.takeWhile, h]

theorem length_dropWhile_le (p : Char → Bool) (l : List Char) :
    (List.dropWhile p l).length ≤ l.length := by
  induction l with
  | nil => exact Nat.le_refl 0
  | cons a as ih =>
    by_cases h : p a = true
    · simp only [List.dropWhile, h]
      exact Nat.le_succ_of_le ih
    · rw [dropWhile_head_neg (Bool.not_eq_true _ ▸ eq_false_of_ne_true h)]

/-- A whitespace character is never a word character. -/
theorem space_not_word {c : Char} (h : isSpaceJS c = true) : isWordChar c = false := by
  simp only [isSpaceJS, Bool.or_eq_true, beq_iff_eq] at h
  obtain ((((h | h) | h) | h) | h) | h := h <;> subst h <;> decide

/-- A word character is never whitespace. -/
theorem word_not_space {c : Char} (h : isWordChar c = true) : isSpaceJS c = false := by
  cases hs : isSpaceJS c
  · rfl
  · rw [space_not_word hs] at h
    exact absurd h (by decide)

/-- `matchToken` succeeds on a syntactically well-formed token and captures
exactly the identifier, leaving the text after the token. -/
theorem matchToken_token {w1 id w2 rest : List Char}
    (hw1 : ∀ c ∈ w1, isSpaceJS c = true) (hw2 : ∀ c ∈ w2, isSpaceJS c = true)
    (hid : id ≠ []) (hidw : ∀ c ∈ id, isWordChar c = true) :
    matchToken ('\x7b' :: '\x7b' :: (w1 ++ id ++ w2 ++ ('\x7d' :: '\x7d' :: rest)))
      = some (⟨id⟩, rest) := by
  obtain ⟨d, ds, rfl⟩ : ∃ d ds, id = d :: ds := by
    cases id with
    | nil => exact absurd rfl hid
    | cons d ds => exact ⟨d, ds, rfl⟩
  have hdword : isWordChar d = true := hidw d (List.mem_cons_self d ds)
  have hrest1 : List.dropWhile isSpaceJS (w2 ++ ('\x7d' :: '\x7d' :: rest))
      = '\x7d' :: '\x7d' :: rest := by
    rw [dropWhile_append_of_all hw2, dropWhile_head_neg (by decide)]
  have htail : List.takeWhile isWordChar (w2 ++ ('\x7d' :: '\x7d' :: rest)) = [] := by
    cases w2 with
    | nil =>
      rw [List.nil_append]
      exact takeWhile_head_neg (by decide)
    | cons e es =>
      have he : isSpaceJS e = true := hw2 e (List.mem_cons_self e es)
      rw [List.cons_append]
      exact takeWhile_head_neg (space_not_word he)
  have hdropw : List.dropWhile isWordChar (w2 ++ ('\x7d' :: '\x7d' :: rest))
      = w2 ++ ('\x7d' :: '\x7d' :: rest) := by
    cases w2 with
    | nil =>
      rw [List.nil_append]
      exact dropWhile_head_neg (by decide)
    | cons e es =>
      have he : isSpaceJS e = true := hw2 e (List.mem_cons_self e es)
      rw [List.cons_append]
      exact dropWhile_head_neg (space_not_word he)
  have hr1 : List.dropWhile isSpaceJS (w1 ++ ((d :: ds) ++ (w2 ++ ('\x7d' :: '\x7d' :: rest))))
      = (d :: ds) ++ (w2 ++ ('\x7d' :: '\x7d' :: rest)) := by
    rw [dropWhile_append_of_all hw1]
    exact dropWhile_head_neg (word_not_space hdword)
  have htake : List.takeWhile isWordChar ((d :: ds) ++ (w2 ++ ('\x7d' :: '\x7d' :: rest)))
      = d :: ds := by
    rw [takeWhile_append_of_all hidw, htail, List.append_nil]
  have hr2 : List.dropWhile isSpaceJS
      (List.dropWhile isWordChar ((d :: ds) ++ (w2 ++ ('\x7d' :: '\x7d' :: rest))))
      = '\x7d' :: '\x7d' :: rest := by
    rw [dropWhile_append_of_all hidw, hdropw, hrest1]
  simp only [matchToken]
  simp only [List.cons_append, List.append_assoc] at hr1 hr2 htake ⊢
  rw [hr1, hr2, htake]
  simp

/-- `matchToken` fails whenever the input does not start with a brace. -/
theorem matchToken_head_ne {c : Char} (rest : List Char) (h : c ≠ '\x7b') :
    matchToken (c :: rest) = none := by
  cases rest with
  | nil => rfl
  | cons d ds =>
    simp only [matchToken]
    rw [if_neg (fun hc => h hc.1)]

/-- A successful `matchToken` consumes at least one character. -/
theorem matchToken_length {l rest2 : List Char} {ident : String}
    (h : matchToken l = some (ident, rest2)) : rest2.length < l.length := by
  match l with
  | [] => exact absurd h (by simp [matchToken])
  | [c] => exact absurd h (by simp [matchToken])
  | c1 :: c2 :: rest =>
    have hchain : (List.dropWhile isSpaceJS
        (List.dropWhile isWordChar (List.dropWhile isSpaceJS rest))).length
        ≤ rest.length :=
      le_trans (length_dropWhile_le _ _)
        (le_trans (length_dropWhile_le _ _) (length_dropWhile_le _ _))
    simp only [matchToken] at h
    split at h
    case isTrue =>
      split at h
      case isTrue => exact absurd h (by simp)
      case isFalse =>
        split at h
        case h_1 d1 d2 rest3 heq =>
          split at h
          case isTrue =>
            simp only [Option.some.injEq, Prod.mk.injEq] at h
            obtain ⟨-, rfl⟩ := h
            rw [heq] at hchain
            simp only [List.length_cons] at hchain ⊢
            omega
          case isFalse => exact absurd h (by simp)
        case h_2 => exact absurd h (by simp)
    case isFalse => exact absurd h (by simp)

/-- The scan is independent of the fuel as soon as the fuel covers the
input length. -/
theorem resolveList_fuel_eq (data : Data) :
    ∀ f1 f2 l, l.length ≤ f1 → l.length ≤ f2 →
      resolveList data f1 l = resolveList data f2 l := by
  intro f1
  induction f1 with
  | zero =>
    intro f2 l h1 _
    have hl : l = [] := List.eq_nil_of_length_eq_zero (Nat.le_zero.mp h1)
    subst hl
    cases f2 <;> rfl
  | succ n ih =>
    intro f2 l h1 h2
    cases l with
    | nil => cases f2 <;> rfl
    | cons c rest =>
      cases f2 with
      | zero => exact absurd h2 (by simp)
      | succ m =>
        cases hm : matchToken (c :: rest) with
        | some pr =>
          obtain ⟨ident, rest2⟩ := pr
          have hlt := matchToken_length hm
          simp only [List.length_cons] at hlt h1 h2
          simp only [resolveList, hm]
          rw [ih m rest2 (by omega) (by omega)]
        | none =>
          simp only [List.length_cons] at h1 h2
          simp only [resolveList, hm]
          rw [ih m rest (by omega) (by omega)]

/-- Strings are concatenations of their character lists. -/
theorem string_mk_append (a b : String) : a ++ b = ⟨a.data ++ b.data⟩ := by
  cases a
  cases b
  rfl

/-- At the head of a well-formed token, the resolver substitutes the
identifier's value and continues after the token. -/
theorem resolve_token_head (data : Data) (w1 id w2 : List Char) (rest : String)
    (hw1 : ∀ c ∈ w1, isSpaceJS c = true) (hw2 : ∀ c ∈ w2, isSpaceJS c = true)
    (hid : id ≠ []) (hidw : ∀ c ∈ id, isWordChar c = true) :
    resolvePlaceholders ⟨'\x7b' :: '\x7b' :: (w1 ++ id ++ w2 ++ ('\x7d' :: '\x7d' :: rest.data))⟩ data
      = substValue data ⟨id⟩ ++ resolvePlaceholders rest data := by
  have hmt := @matchToken_token w1 id w2 rest.data hw1 hw2 hid hidw
  simp only [resolvePlaceholders, List.length_cons, resolveList, hmt]
  have hfuel : resolveList data
      ((w1 ++ id ++ w2 ++ ('\x7d' :: '\x7d' :: rest.data)).length + 1) rest.data
      = resolveList data rest.data.length rest.data := by
    apply resolveList_fuel_eq
    · simp only [List.length_append, List.length_cons]
      omega
    · exact Nat.le_refl _
  rw [hfuel, string_mk_append]

/-- When no token matches at the head, the resolver copies the character
verbatim and continues with the rest of the string. -/
theorem resolve_nomatch_head (data : Data) (c : Char) (rest : String)
    (h : matchToken (c :: rest.data) = none) :
    resolvePlaceholders ⟨c :: rest.data⟩ data
      = (⟨[c]⟩ : String) ++ resolvePlaceholders rest data := by
  simp only [resolvePlaceholders, List.length_cons, resolveList, h]
  rw [string_mk_append]
  rfl

/-- A string containing no opening brace resolves to itself. -/
theorem resolveList_no_brace (data : Data) :
    ∀ l : List Char, (∀ c ∈ l, c ≠ '\x7b') → ∀ f, l.length ≤ f →
      resolveList data f l = l := by
  intro l
  induction l with
  | nil =>
    intro _ f _
    cases f <;> rfl
  | cons c rest ih =>
    intro h f hf
    cases f with
    | zero => exact absurd hf (by simp)
    | succ n =>
      simp only [resolveList,
        matchToken_head_ne rest (h c (List.mem_cons_self c rest))]
      rw [ih (fun d hd => h d (List.mem_cons_of_mem c hd)) n
        (by simp only [List.length_cons] at hf; omega)]

/-- `resolvePlaceholders` is the identity on brace-free strings. -/
theorem resolve_no_brace (s : String) (data : Data)
    (h : ∀ c ∈ s.data, c ≠ '\x7b') : resolvePlaceholders s data = s := by
  simp only [resolvePlaceholders]
  rw [resolveList_no_brace data s.data h s.data.length (Nat.le_refl _)]

/-! ## JSON values and the template write validation

`PUT /api/template` (`src/server.js` lines 83-103, and identically the PUT
branch of `src/api/template.js` lines 44-63) accepts an arbitrary JSON
body, so the payload is modelled as a full JSON value; `vundefined` models the
`undefined` produced by a property access on a value lacking the field. -/

/-- A JSON value as delivered by the body parser, plus `undefined`. -/
inductive JsValue where
  | vundefined
  | vnull
  | vbool (b : Bool)
  | vnum (q : ℚ)
  | vstr (s : String)
  | varr (l : List JsValue)
  | vobj (fields : List (String × JsValue))

/-- JavaScript truthiness of a value. -/
def jsTruthy : JsValue → Bool
  | .vundefined => false
  | .vnull => false
  | .vbool b => b
  | .vnum q => decide (q ≠ 0)
  | .vstr s => decide (s ≠ (""))
  | .varr _ => true
  | .vobj _ => true

/-- `Array.isArray`. -/
def isArrayJs : JsValue → Bool
  | .varr _ => true
  | _ => false

/-- JavaScript property access `v[k]`: `vundefined` on anything that is not an
object with the field. -/
def jsGet (v : JsValue) (k : String) : JsValue :=
  match v with
  | .vobj fields =>
    match fields.find? (fun kv => kv.1 = k) with
    | some kv => kv.2
    | none => .vundefined
  | _ => .vundefined

/-- The write-time validation of the template update endpoint:
`!newTemplate || !newTemplate.elements || !Array.isArray(newTemplate.elements)`
rejects the payload. -/
def putTemplateValid (body : JsValue) : Bool :=
  !((!(jsTruthy body)) || (!(jsTruthy (jsGet body ("elements"))))
    || (!(isArrayJs (jsGet body ("elements")))))

/-- The PUT handler's contract: a valid payload is stored as-is and
acknowledged; an invalid one is rejected with the 400 response
`Invalid template format`. -/
def putTemplate (body : JsValue) : Except String JsValue :=
  if putTemplateValid body = true then .ok body
  else .error ("Invalid template format")

/-! ## Geometry kernel -/

/-- A canvas path command, as issued against the 2d context. -/
inductive PathCmd where
  | moveTo (x y : ℚ)
  | lineTo (x y : ℚ)
  | quadTo (cx cy x y : ℚ)
  | closePath
deriving DecidableEq

/-- The corner radius actually used by `drawRoundedRect`
(`src/server.js` line 60): `Math.max(0, Math.min(radius, Math.min(width, height) / 2))`.
(`radius || 0` is the identity on rational radii.) -/
def effectiveRadius (radius width height : ℚ) : ℚ :=
  max 0 (min radius (min width height / 2))

/-- The path built by `drawRoundedRect` (`src/server.js` lines 59-72):
four straight edges joined by quadratic corners of the clamped radius. -/
def drawRoundedRect (x y width height radius : ℚ) : List PathCmd :=
  let r := effectiveRadius radius width height
  [ PathCmd.moveTo (x + r) y,
    PathCmd.lineTo (x + width - r) y,
    PathCmd.quadTo (x + width) y (x + width) (y + r),
    PathCmd.lineTo (x + width) (y + height - r),
    PathCmd.quadTo (x + width) (y + height) (x + width - r) (y + height),
    PathCmd.lineTo (x + r) (y + height),
    PathCmd.quadTo x (y + height) x (y + height - r),
    PathCmd.lineTo x (y + r),
    PathCmd.quadTo x y (x + r) y,
    PathCmd.closePath ]

/-- A point of the raster plane. -/
abbrev Point := ℚ × ℚ

/-- The point a path command moves the pen to, if any. -/
def cmdEndpoint : PathCmd → Option Point
  | .moveTo x y => some (x, y)
  | .lineTo x y => some (x, y)
  | .quadTo _ _ x y => some (x, y)
  | .closePath => none

/-- The pen positions a path visits, in order. -/
def pathEndpoints (cmds : List PathCmd) : List Point :=
  cmds.filterMap cmdEndpoint

/-- Collapse consecutive duplicate pen positions (the trace of the path,
ignoring zero-length segments). -/
def dedupConsec : List Point → List Point
  | [] => []
  | [p] => [p]
  | p :: q :: rest => if p = q then dedupConsec (q :: rest) else p :: dedupConsec (q :: rest)

/-! ## Raster surface and canvas semantics

Pixels are modelled as an assignment of a CSS colour string to every point
of the rational plane; node-canvas painting operations become updates of
that assignment.  Clipping state mirrors the context's `save`/`clip`/
`restore` discipline. -/

/-- A CSS colour string. -/
abbrev Color := String

/-- Decoded pixel data with its natural dimensions, as produced by
`loadImage`: sampling is by source coordinate. -/
structure Image where
  width : Nat
  height : Nat
  pix : ℚ → ℚ → Color

/-- A circular clip region. -/
structure Circle where
  cx : ℚ
  cy : ℚ
  r : ℚ

/-- Membership in a circle (boundary included). -/
def inCircle (c : Circle) (p : Point) : Bool :=
  decide ((p.1 - c.cx) ^ 2 + (p.2 - c.cy) ^ 2 ≤ c.r ^ 2)

/-- Membership in every active clip region. -/
def inClips (cs : List Circle) (p : Point) : Bool :=
  cs.all (fun c => inCircle c p)

/-- Membership in the axis-aligned box, boundary included. -/
def inRectB (x y w h : ℚ) (p : Point) : Bool :=
  decide (x ≤ p.1 ∧ p.1 ≤ x + w ∧ y ≤ p.2 ∧ p.2 ≤ y + h)

/-- Inside test for one quadratic corner of the rounded rectangle, in
corner-relative coordinates `a, b` (distance from the two cut edges,
divided by the radius): the corner curve traced by
`quadraticCurveTo` satisfies `sqrt a + sqrt b = 1`, and the interior is
`sqrt a + sqrt b ≥ 1`, stated square-root-free. -/
def bezierCornerInside (a b : ℚ) : Bool :=
  decide (1 ≤ a + b) || decide ((1 - a - b) ^ 2 ≤ 4 * (a * b))

/-- The fill region of the path built by `drawRoundedRect`: the node-canvas
fill of four straight edges joined by quadratic corners of the clamped
radius.  For a degenerate (zero) radius this is the plain rectangle. -/
def roundedRectRegionB (x y w h radius : ℚ) (p : Point) : Bool :=
  let r := effectiveRadius radius w h
  inRectB x y w h p &&
    (if r ≤ 0 then true
     else
       bezierCornerInside ((p.1 - x) / r) ((p.2 - y) / r) &&
       bezierCornerInside ((x + w - p.1) / r) ((p.2 - y) / r) &&
       bezierCornerInside ((x + w - p.1) / r) ((y + h - p.2) / r) &&
       bezierCornerInside ((p.1 - x) / r) ((y + h - p.2) / r))

/-- The typography state of one `fillText` call. -/
structure TextSpec where
  text : String
  font : String
  color : String
  align : String
  x : ℚ
  y : ℚ

/-- The glyph rasterizer is a collaborator: given the text call and the
current pixels it produces the new pixels (clipping is applied outside). -/
abbrev TextRaster := TextSpec → (Point → Color) → (Point → Color)

/-- One canvas paint operation issued by the compositor. -/
inductive PaintOp where
  | fillDisc (cx cy r : ℚ) (color : Color)
  | save
  | clipCircle (cx cy r : ℚ)
  | restore
  | drawImage (img : Image) (x y w h : ℚ)
  | fillRoundedRect (x y w h radius : ℚ) (color : Color)
  | fillText (spec : TextSpec)

/-- The mutable context state: pixels, active clip regions, and the
`save` stack. -/
structure CtxState where
  pix : Point → Color
  clips : List Circle
  stack : List (List Circle)

/-- Interpretation of one paint operation on the context state. -/
def applyOp (tr : TextRaster) (st : CtxState) : PaintOp → CtxState
  | .fillDisc cx cy r col =>
    { st with pix := fun p =>
        if inClips st.clips p && inCircle ⟨cx, cy, r⟩ p then col else st.pix p }
  | .save => { st with stack := st.clips :: st.stack }
  | .clipCircle cx cy r => { st with clips := ⟨cx, cy, r⟩ :: st.clips }
  | .restore =>
    match st.stack with
    | [] => st
    | c :: s2 => { st with clips := c, stack := s2 }
  | .drawImage img x y w h =>
    { st with pix := fun p =>
        if inClips st.clips p && inRectB x y w h p then
          img.pix ((p.1 - x) * (img.width : ℚ) / w) ((p.2 - y) * (img.height : ℚ) / h)
        else st.pix p }
  | .fillRoundedRect x y w h radius col =>
    { st with pix := fun p =>
        if inClips st.clips p && roundedRectRegionB x y w h radius p then col
        else st.pix p }
  | .fillText spec =>
    { st with pix := fun p =>
        if inClips st.clips p then tr spec st.pix p else st.pix p }

/-- Interpretation of a sequence of paint operations. -/
def applyOps (tr : TextRaster) (st : CtxState) (ops : List PaintOp) : CtxState :=
  ops.foldl (applyOp tr) st

/-- The colour of a fresh canvas (`createCanvas`): transparent black. -/
def initialColor : Color := ("rgba(0,0,0,0)")

/-- The finished raster surface of one render. -/
structure Surface where
  width : Nat
  height : Nat
  pix : Point → Color

/-- A glyph rasterizer that paints nothing (used to instantiate renders
whose templates contain no text). -/
def blankRaster : TextRaster := fun _ old => old

/-! ## Template model

Elements are duck-typed records dispatched on the `type` string; absent
fields are `none` and the per-branch defaults (`?? 0`, `|| "..."`) are
applied at use sites exactly as in the source. -/

/-- The optional `border` of a circularly clipped image element. -/
structure Border where
  width : ℚ
  color : String

/-- One template element, as read from the template JSON. -/
structure Element where
  type : String
  name : Option String := none
  x : Option ℚ := none
  y : Option ℚ := none
  width : Option ℚ := none
  height : Option ℚ := none
  source : Option String := none
  clip : Option String := none
  border : Option Border := none
  radius : Option ℚ := none
  color : Option String := none
  text : Option String := none
  font : Option String := none
  align : Option String := none
  fontSize : Option ℚ := none

/-- The template definition: an optional background and the ordered
element list. -/
structure Template where
  background : Option String
  elements : List Element

/-- JavaScript `s || d` for strings: the default replaces the empty
string. -/
def jsOrStr (s d : String) : String := if s = ("") then d else s

/-- JavaScript `o || d` for an optional string field: the default replaces
both an absent field and the empty string. -/
def jsOr (o : Option String) (d : String) : String :=
  match o with
  | none => d
  | some s => jsOrStr s d

/-! ## Asset acquisition environment -/

/-- Outcome of `fetch(source)`: a body (identified by an abstract blob id),
a non-success response with its status code, or a rejected request. -/
inductive FetchResult where
  | ok (bytes : Nat)
  | notOk (status : Nat)
  | netErr (msg : String)

/-- The acquisition collaborators: `loadLocal` is `loadImage` on a path,
`decode` is `loadImage` on a fetched buffer, `fetchUrl` is `fetch`.
`cwd` is `process.cwd()`; `appRoot` is the `path.join(__dirname, "..")`
base used by the serverless handlers. -/
structure Env where
  cwd : String
  appRoot : String
  fetchUrl : String → FetchResult
  decode : Nat → Except String Image
  loadLocal : String → Except String Image

/-- Character-level prefix test (the model of `String.startsWith`). -/
def charsLeadWith : List Char → List Char → Bool
  | [], _ => true
  | _ :: _, [] => false
  | a :: as, b :: bs => decide (a = b) && charsLeadWith as bs

/-- `String.startsWith`, modelled over the character lists. -/
def strStartsWith (s pre : String) : Bool := charsLeadWith pre.data s.data

/-- POSIX `path.isAbsolute`. -/
def isAbsolutePath (s : String) : Bool := strStartsWith s ("/")

/-- `path.join` of two segments (modelled as separator concatenation;
no claim depends on path normalisation). -/
def joinPath (a b : String) : String := a ++ ("/") ++ b

/-- Remote-source classification: an `http://` or `https://` prefix
(`source.startsWith("http://") || source.startsWith("https://")`). -/
def isRemote (s : String) : Bool :=
  strStartsWith s ("http://") || strStartsWith s ("https://")

/-- The error thrown for a non-success fetch:
`Failed to fetch image (name): status` (`src/server.js` line 169). -/
def fetchErrMsg (name : String) (status : Nat) : String :=
  ("Failed to fetch image (") ++ (name ++ ((("): ")) ++ toString status))

/-- Acquire the decoded pixels of one image element
(`src/server.js` lines 164-179): remote sources are fetched and decoded,
anything else is loaded from the local path resolved against `root`. -/
def acquireImage (env : Env) (root name source : String) : Except String Image :=
  if isRemote source then
    match env.fetchUrl source with
    | .ok bytes =>
      match env.decode bytes with
      | .ok img => .ok img
      | .error e => .error e
    | .notOk status => .error (fetchErrMsg name status)
    | .netErr e => .error e
  else
    env.loadLocal (if isAbsolutePath source then source else joinPath root source)

/-! ## The compositor element pass -/

/-- The paint operations of one element (`src/server.js` lines 149-227):
dispatch on the `type` string, unknown types paint nothing.  Only image
acquisition can fail. -/
def elementOps (env : Env) (root : String) (data : Data) (el : Element) :
    Except String (List PaintOp) :=
  if el.type = ("image") then
    let name := jsOr el.name ("image")
    let x := el.x.getD 0
    let y := el.y.getD 0
    let w := el.width.getD 0
    let h := el.height.getD 0
    let source := resolvePlaceholders (el.source.getD ("")) data
    let hasCircleClip := el.clip = some ("circle")
    (acquireImage env root name source).map fun imageObj =>
      let ringOps :=
        match el.border with
        | some b =>
          if hasCircleClip ∧ b.width ≠ 0 ∧ b.color ≠ ("") then
            [PaintOp.fillDisc (x + w / 2) (y + h / 2) (min w h / 2 + b.width / 2)
              (jsOrStr (resolvePlaceholders b.color data) ("#000000"))]
          else []
        | none => []
      let clipOps :=
        if hasCircleClip then
          [PaintOp.clipCircle (x + w / 2) (y + h / 2) (min w h / 2)]
        else []
      ringOps ++ [PaintOp.save] ++ clipOps
        ++ [PaintOp.drawImage imageObj x y w h, PaintOp.restore]
  else if el.type = ("rectangle") then
    .ok [PaintOp.fillRoundedRect (el.x.getD 0) (el.y.getD 0)
      (el.width.getD 0) (el.height.getD 0) (el.radius.getD 0)
      (resolvePlaceholders (el.color.getD ("#000000")) data)]
  else if el.type = ("text") then
    let align := (jsOr el.align ("left")).toLower
    let alignNorm :=
      if align = ("left") ∨ align = ("right") ∨ align = ("center") then align
      else ("left")
    let fontFamily :=
      jsOrStr (resolvePlaceholders (jsOr el.font ("DB-Adman-X")) data) ("DB-Adman-X")
    .ok [PaintOp.fillText
      { text := resolvePlaceholders (el.text.getD ("")) data,
        font := toString (el.fontSize.getD 24) ++ ("px ") ++ fontFamily,
        color := resolvePlaceholders (el.color.getD ("#000000")) data,
        align := alignNorm,
        x := el.x.getD 0,
        y := el.y.getD 0 }]
  else .ok []

/-- The paint operations of the whole element pass, strictly in array
order; the first acquisition failure aborts the pass. -/
def elementsOps (env : Env) (root : String) (data : Data) :
    List Element → Except String (List PaintOp)
  | [] => .ok []
  | el :: rest =>
    match elementOps env root data el with
    | .error e => .error e
    | .ok ops =>
      match elementsOps env root data rest with
      | .error e => .error e
      | .ok more => .ok (ops ++ more)

/-! ## Background resolution and the two render pipelines -/

/-- The fixed local fallback asset:
`path.join(path.join(process.cwd(), "assets"), "background.png")`. -/
def fallbackBackgroundPath (env : Env) : String :=
  joinPath (joinPath env.cwd ("assets")) ("background.png")

/-- Background resolution of `POST /render` in `src/server.js`
(lines 117-137): try the template-specified background (placeholders
resolved, path made absolute against `process.cwd()`), fall back to the
fixed asset; a failure of the fallback load is NOT caught there and
propagates out of the background step. -/
def serverBackground (env : Env) (bg? : Option String) (data : Data) :
    Except String Image :=
  let fromTemplate : Option Image :=
    match bg? with
    | some bgStr =>
      if bgStr = ("") then none
      else
        let p := resolvePlaceholders bgStr data
        let resolved := if isAbsolutePath p then p else joinPath env.cwd p
        match env.loadLocal resolved with
        | .ok img => some img
        | .error _ => none
    | none => none
  match fromTemplate with
  | some img => .ok img
  | none => env.loadLocal (fallbackBackgroundPath env)

/-- The synthesized default background of `src/api/render.js`
(lines 109-115): a 1080 by 1080 canvas filled with `#ffffff`. -/
def whiteImage1080 : Image :=
  ⟨1080, 1080, fun _ _ => ("#ffffff")⟩

/-- Background resolution of the serverless handler in `src/api/render.js`
(lines 87-117): as `serverBackground` (with the template path resolved
against the handler's app root), but a failure of the fixed fallback is
caught and replaced by the synthesized white 1080 by 1080 canvas, so this
step never fails. -/
def apiBackground (env : Env) (bg? : Option String) (data : Data) : Image :=
  let fromTemplate : Option Image :=
    match bg? with
    | some bgStr =>
      if bgStr = ("") then none
      else
        let p := resolvePlaceholders bgStr data
        let resolved := if isAbsolutePath p then p else joinPath env.appRoot p
        match env.loadLocal resolved with
        | .ok img => some img
        | .error _ => none
    | none => none
  match fromTemplate with
  | some img => img
  | none =>
    match env.loadLocal (fallbackBackgroundPath env) with
    | .ok img => img
    | .error _ => whiteImage1080

/-- The render pipeline of `POST /render` in `src/server.js`
(lines 110-254): resolve the background, size the canvas to its natural
dimensions (`|| 1080`), paint the background stretched to the full
surface, run the element pass in array order, and return the finished
surface; any uncaught failure aborts the request with no image output
(the catch handler answers with an error and never returns pixels). -/
def renderServer (env : Env) (tr : TextRaster) (tmpl : Option Template)
    (data : Data) : Except String Surface :=
  match serverBackground env (tmpl.bind Template.background) data with
  | .error e => .error e
  | .ok bg =>
    let width : Nat := if bg.width = 0 then 1080 else bg.width
    let height : Nat := if bg.height = 0 then 1080 else bg.height
    match elementsOps env env.cwd data ((tmpl.map Template.elements).getD []) with
    | .error e => .error e
    | .ok ops =>
      let st := applyOps tr ⟨fun _ => initialColor, [], []⟩
        (PaintOp.drawImage bg 0 0 (width : ℚ) (height : ℚ) :: ops)
      .ok ⟨width, height, st.pix⟩

/-- The render pipeline of the serverless handler in `src/api/render.js`
(lines 56-228): identical element pass, but the handler fails early when
no template is loaded, the background step is total, and local element
paths resolve against the handler's app root. -/
def renderApi (env : Env) (tr : TextRaster) (tmpl : Option Template)
    (data : Data) : Except String Surface :=
  match tmpl with
  | none => .error ("Template not loaded")
  | some t =>
    let bg := apiBackground env t.background data
    let width : Nat := if bg.width = 0 then 1080 else bg.width
    let height : Nat := if bg.height = 0 then 1080 else bg.height
    match elementsOps env env.appRoot data t.elements with
    | .error e => .error e
    | .ok ops =>
      let st := applyOps tr ⟨fun _ => initialColor, [], []⟩
        (PaintOp.drawImage bg 0 0 (width : ℚ) (height : ℚ) :: ops)
      .ok ⟨width, height, st.pix⟩

/-! # Claim theorems -/

/-- C2: `resolvePlaceholders` replaces each well-formed
brace-brace whitespace identifier whitespace brace-brace token by the
string form of `data[identifier]`, with the empty string for an absent key
or a null value; each token is resolved independently as the scan
continues after it; any position where no token matches (malformed
token syntax included) is copied verbatim; and non-string inputs are
returned unchanged. -/
theorem c2_resolve_placeholders :
    (∀ (data : Data) (w1 id w2 : List Char) (rest : String),
      (∀ c ∈ w1, isSpaceJS c = true) → (∀ c ∈ w2, isSpaceJS c = true) →
      id ≠ [] → (∀ c ∈ id, isWordChar c = true) →
      resolvePlaceholders
          ⟨'\x7b' :: '\x7b' :: (w1 ++ id ++ w2 ++ ('\x7d' :: '\x7d' :: rest.data))⟩ data
        = substValue data ⟨id⟩ ++ resolvePlaceholders rest data)
    ∧ (∀ (data : Data) (k : String), lookupData data k = none →
        substValue data k = (""))
    ∧ (∀ (data : Data) (k : String), lookupData data k = some Scalar.null →
        substValue data k = (""))
    ∧ (∀ (data : Data) (c : Char) (rest : String), matchToken (c :: rest.data) = none →
        resolvePlaceholders ⟨c :: rest.data⟩ data
          = (⟨[c]⟩ : String) ++ resolvePlaceholders rest data)
    ∧ (∀ (data : Data) (v : Scalar), (∀ s, v ≠ Scalar.s s) →
        resolvePlaceholdersScalar v data = v) := by
  refine ⟨resolve_token_head, ?_, ?_, resolve_nomatch_head, ?_⟩
  · intro data k hk
    simp [substValue, hk]
  · intro data k hk
    simp [substValue, hk]
  · intro data v hv
    cases v with
    | s str => exact absurd rfl (hv str)
    | n q => rfl
    | b b => rfl
    | null => rfl

/-- Witness for C2 at concrete inputs: a token with inner whitespace and a
present key, a missing key, a null value, a malformed token left verbatim,
and a numeric pass-through. -/
theorem c2_resolve_placeholders_witness :
    resolvePlaceholders
        ⟨'\x7b' :: '\x7b' :: ([' '] ++ ['n', 'a', 'm', 'e'] ++ [] ++ ('\x7d' :: '\x7d' :: ("!").data))⟩
        [(("name"), Scalar.s ("Alice"))]
      = substValue [(("name"), Scalar.s ("Alice"))] ⟨['n', 'a', 'm', 'e']⟩
        ++ resolvePlaceholders ("!") [(("name"), Scalar.s ("Alice"))]
    ∧ substValue [] ("missing") = ("")
    ∧ substValue [(("k"), Scalar.null)] ("k") = ("")
    ∧ resolvePlaceholders ⟨'\x7b' :: ("\x7b \x7d\x7d").data⟩ []
      = (⟨['\x7b']⟩ : String) ++ resolvePlaceholders ("\x7b \x7d\x7d") []
    ∧ resolvePlaceholdersScalar (Scalar.n 5) [] = Scalar.n 5 := by
  refine ⟨?_, ?_, ?_, ?_, ?_⟩
  · exact c2_resolve_placeholders.1 [(("name"), Scalar.s ("Alice"))]
      [' '] ['n', 'a', 'm', 'e'] [] ("!")
      (by decide) (by decide) (by decide) (by decide)
  · exact c2_resolve_placeholders.2.1 [] ("missing") (by decide)
  · exact c2_resolve_placeholders.2.2.1 [(("k"), Scalar.null)] ("k") (by decide)
  · exact c2_resolve_placeholders.2.2.2.1 [] '\x7b' ("\x7b \x7d\x7d") (by decide)
  · exact c2_resolve_placeholders.2.2.2.2 [] (Scalar.n 5)
      (fun s hs => Scalar.noConfusion hs)

/-- C9: the template update endpoint accepts a payload exactly when its
`elements` property is an array (of arbitrary content, so element shapes
are not validated at write time); every other payload, the absent or
non-object ones included, is rejected with the `Invalid template format`
validation error. -/
theorem c9_put_template_validation (body : JsValue) :
    putTemplate body = Except.ok body ↔
      ∃ l, jsGet body ("elements") = JsValue.varr l := by
  have hvalid : ∀ b : JsValue, putTemplateValid b = true ↔
      jsTruthy b = true ∧ jsTruthy (jsGet b ("elements")) = true
        ∧ isArrayJs (jsGet b ("elements")) = true := by
    intro b
    unfold putTemplateValid
    cases h1 : jsTruthy b <;> cases h2 : jsTruthy (jsGet b ("elements")) <;>
      cases h3 : isArrayJs (jsGet b ("elements")) <;> simp
  have harrex : ∀ v : JsValue, isArrayJs v = true → ∃ l, v = JsValue.varr l := by
    intro v hv
    cases v with
    | varr l => exact ⟨l, rfl⟩
    | vundefined => exact absurd hv (by simp [isArrayJs])
    | vnull => exact absurd hv (by simp [isArrayJs])
    | vbool b => exact absurd hv (by simp [isArrayJs])
    | vnum q => exact absurd hv (by simp [isArrayJs])
    | vstr s => exact absurd hv (by simp [isArrayJs])
    | vobj fields => exact absurd hv (by simp [isArrayJs])
  constructor
  · intro h
    by_cases hv : putTemplateValid body = true
    · obtain ⟨-, -, harr⟩ := (hvalid body).mp hv
      exact harrex _ harr
    · rw [putTemplate, if_neg hv] at h
      exact absurd h (by simp)
  · rintro ⟨l, hl⟩
    obtain ⟨fields, rfl⟩ : ∃ fields, body = JsValue.vobj fields := by
      cases body with
      | vobj fields => exact ⟨fields, rfl⟩
      | vundefined => exact absurd hl (by simp [jsGet])
      | vnull => exact absurd hl (by simp [jsGet])
      | vbool b => exact absurd hl (by simp [jsGet])
      | vnum q => exact absurd hl (by simp [jsGet])
      | vstr s => exact absurd hl (by simp [jsGet])
      | varr l2 => exact absurd hl (by simp [jsGet])
    rw [putTemplate,
      if_pos ((hvalid (JsValue.vobj fields)).mpr
        ⟨rfl, by rw [hl]; rfl, by rw [hl]; rfl⟩)]

/-- C5: the corner radius of a rectangle element's path is the requested
radius clamped to the closed interval from 0 to half the smaller
dimension; an over-large radius builds the same path as the maximal
inscribed radius; a non-positive radius degenerates the path's trace to
the plain rectangle. -/
theorem c5_rounded_rect_radius_clamp (x y w h radius : ℚ) :
    (0 ≤ w → 0 ≤ h →
      0 ≤ effectiveRadius radius w h ∧ effectiveRadius radius w h ≤ min w h / 2)
    ∧ (min w h / 2 ≤ radius →
      drawRoundedRect x y w h radius = drawRoundedRect x y w h (min w h / 2))
    ∧ (radius ≤ 0 → 0 < w → 0 < h →
      dedupConsec (pathEndpoints (drawRoundedRect x y w h radius))
        = [(x, y), (x + w, y), (x + w, y + h), (x, y + h), (x, y)]) := by
  refine ⟨?_, ?_, ?_⟩
  · intro hw hh
    have hm : 0 ≤ min w h / 2 := by
      have : 0 ≤ min w h := le_min hw hh
      linarith
    exact ⟨le_max_left _ _, max_le hm (min_le_right _ _)⟩
  · intro hrad
    have heq : effectiveRadius radius w h = effectiveRadius (min w h / 2) w h := by
      unfold effectiveRadius
      rw [min_eq_right hrad, min_self]
    simp only [drawRoundedRect, heq]
  · intro hrad hw hh
    have hm : (0 : ℚ) ≤ min w h / 2 := by
      have : (0 : ℚ) < min w h := lt_min hw hh
      linarith
    have hr0 : effectiveRadius radius w h = 0 := by
      unfold effectiveRadius
      rw [min_eq_left (le_trans hrad hm), max_eq_left hrad]
    have hwne : w ≠ 0 := ne_of_gt hw
    have hhne : h ≠ 0 := ne_of_gt hh
    simp only [drawRoundedRect, hr0, pathEndpoints, List.filterMap_cons, cmdEndpoint,
      List.filterMap_nil, add_zero, sub_zero]
    simp [dedupConsec, Prod.mk.injEq, self_eq_add_right, add_right_eq_self, hwne, hhne]

/-- Witness for C5 at concrete inputs: an over-large radius clamps to the
inscribed maximum, and a negative radius traces the plain rectangle. -/
theorem c5_rounded_rect_radius_clamp_witness :
    ((0 : ℚ) ≤ effectiveRadius 100 10 6 ∧ effectiveRadius 100 10 6 ≤ min 10 6 / 2)
    ∧ drawRoundedRect 1 2 10 6 100 = drawRoundedRect 1 2 10 6 (min 10 6 / 2)
    ∧ dedupConsec (pathEndpoints (drawRoundedRect 1 2 10 6 (-3)))
      = [(1, 2), (1 + 10, 2), (1 + 10, 2 + 6), (1, 2 + 6), (1, 2)] := by
  refine ⟨?_, ?_, ?_⟩
  · exact (c5_rounded_rect_radius_clamp 1 2 10 6 100).1 (by norm_num) (by norm_num)
  · exact (c5_rounded_rect_radius_clamp 1 2 10 6 100).2.1 (by norm_num)
  · exact (c5_rounded_rect_radius_clamp 1 2 10 6 (-3)).2.2 (by norm_num)
      (by norm_num) (by norm_num)

/-- C10: when the `font` of a text element resolves to the empty string
after placeholder substitution (for example a placeholder whose key is
absent from the data), the typography state is set with the brand family
`DB-Adman-X`, never the empty family name. -/
theorem c10_text_font_fallback (env : Env) (root : String) (data : Data)
    (nm : Option String) (xo yo fso : Option ℚ) (co txt alo : Option String)
    (f : String) (hf : f ≠ ("")) (hres : resolvePlaceholders f data = ("")) :
    ∃ al : String, elementOps env root data
        { type := ("text"), name := nm, x := xo, y := yo, fontSize := fso,
          color := co, text := txt, font := some f, align := alo }
      = Except.ok [PaintOp.fillText
          { text := resolvePlaceholders (txt.getD ("")) data,
            font := toString (fso.getD 24) ++ ("px ") ++ ("DB-Adman-X"),
            color := resolvePlaceholders (co.getD ("#000000")) data,
            align := al, x := xo.getD 0, y := yo.getD 0 }] := by
  have hfam : jsOrStr (resolvePlaceholders (jsOr (some f) ("DB-Adman-X")) data)
      ("DB-Adman-X") = ("DB-Adman-X") := by
    simp only [jsOr, jsOrStr, if_neg hf, hres]
    rfl
  refine ⟨if (jsOr alo ("left")).toLower = ("left")
      ∨ (jsOr alo ("left")).toLower = ("right")
      ∨ (jsOr alo ("left")).toLower = ("center")
    then (jsOr alo ("left")).toLower else ("left"), ?_⟩
  show Except.ok [PaintOp.fillText
      { text := resolvePlaceholders (txt.getD ("")) data,
        font := toString (fso.getD 24) ++ ("px ")
          ++ jsOrStr (resolvePlaceholders (jsOr (some f) ("DB-Adman-X")) data)
            ("DB-Adman-X"),
        color := resolvePlaceholders (co.getD ("#000000")) data,
        align := if (jsOr alo ("left")).toLower = ("left")
            ∨ (jsOr alo ("left")).toLower = ("right")
            ∨ (jsOr alo ("left")).toLower = ("center")
          then (jsOr alo ("left")).toLower else ("left"),
        x := xo.getD 0, y := yo.getD 0 }] = _
  rw [hfam]

/-- Witness for C10: a text element whose font is a single placeholder with
no matching key falls back to the brand family. -/
theorem c10_text_font_fallback_witness :
    ∃ al : String, elementOps
        ⟨("/app"), ("/app"), fun _ => FetchResult.netErr (("x")),
          fun _ => Except.error (("x")), fun _ => Except.error (("x"))⟩
        ("/app") []
        { type := ("text"), name := none, x := none, y := none, fontSize := none,
          color := none, text := none, font := some ("\x7b\x7bbrandFont\x7d\x7d"),
          align := none }
      = Except.ok [PaintOp.fillText
          { text := resolvePlaceholders ((Option.none).getD ("")) [],
            font := toString ((Option.none).getD (24 : ℚ)) ++ ("px ") ++ ("DB-Adman-X"),
            color := resolvePlaceholders ((Option.none).getD ("#000000")) [],
            align := al, x := (Option.none).getD 0, y := (Option.none).getD 0 }] :=
  c10_text_font_fallback
    ⟨("/app"), ("/app"), fun _ => FetchResult.netErr (("x")),
      fun _ => Except.error (("x")), fun _ => Except.error (("x"))⟩
    ("/app") [] none none none none none none none ("\x7b\x7bbrandFont\x7d\x7d")
    (by decide) (by decide)

/-- C4: for an image element with circular clip and a border of positive
width whose colour resolves to a non-empty string, the compositor paints a
solid disc of radius `min w h / 2 + border.width / 2` in the resolved
border colour, then clips to the circle of radius `min w h / 2` centred in
the bounding box and paints the image inside it; the observable ring width
(disc radius minus clip radius) is exactly half the configured border
width. -/
theorem c4_circle_ring_border (env : Env) (root : String) (data : Data)
    (nm : Option String) (x y w h bw : ℚ) (src bc : String) (img : Image)
    (hbw : 0 < bw)
    (hbc : resolvePlaceholders bc data ≠ (""))
    (hacq : acquireImage env root (jsOr nm ("image")) (resolvePlaceholders src data)
      = Except.ok img) :
    elementOps env root data
        { type := ("image"), name := nm, x := some x, y := some y,
          width := some w, height := some h, source := some src,
          clip := some ("circle"), border := some ⟨bw, bc⟩ }
      = Except.ok
          [ PaintOp.fillDisc (x + w / 2) (y + h / 2) (min w h / 2 + bw / 2)
              (resolvePlaceholders bc data),
            PaintOp.save,
            PaintOp.clipCircle (x + w / 2) (y + h / 2) (min w h / 2),
            PaintOp.drawImage img x y w h,
            PaintOp.restore ]
    ∧ (min w h / 2 + bw / 2) - min w h / 2 = bw / 2 := by
  have hbc0 : bc ≠ ("") := by
    intro hc
    subst hc
    exact hbc rfl
  constructor
  · show (acquireImage env root (jsOr nm ("image")) (resolvePlaceholders src data)).map
        (fun imageObj =>
          (if (some ("circle") = some ("circle")) ∧ bw ≠ 0 ∧ bc ≠ ("") then
            [PaintOp.fillDisc (x + w / 2) (y + h / 2) (min w h / 2 + bw / 2)
              (jsOrStr (resolvePlaceholders bc data) ("#000000"))]
          else []) ++ [PaintOp.save]
          ++ (if some ("circle") = some ("circle") then
              [PaintOp.clipCircle (x + w / 2) (y + h / 2) (min w h / 2)]
            else [])
          ++ [PaintOp.drawImage imageObj x y w h, PaintOp.restore]) = _
    rw [hacq]
    simp [Except.map, jsOrStr, ne_of_gt hbw, hbc0, hbc]
  · ring

/-- Witness for C4: a concrete circularly clipped element with a 10-wide
red ring border over a locally loaded image. -/
theorem c4_circle_ring_border_witness :
    elementOps
        ⟨("/app"), ("/app"), fun _ => FetchResult.netErr (("x")),
          fun _ => Except.error (("x")),
          fun _ => Except.ok ⟨4, 4, fun _ _ => ("#102030")⟩⟩
        ("/app") []
        { type := ("image"), name := none, x := some 10, y := some 20,
          width := some 100, height := some 80, source := some ("pic.png"),
          clip := some ("circle"), border := some ⟨10, ("#AA0000")⟩ }
      = Except.ok
          [ PaintOp.fillDisc (10 + 100 / 2) (20 + 80 / 2) (min 100 80 / 2 + 10 / 2)
              (resolvePlaceholders ("#AA0000") []),
            PaintOp.save,
            PaintOp.clipCircle (10 + 100 / 2) (20 + 80 / 2) (min 100 80 / 2),
            PaintOp.drawImage ⟨4, 4, fun _ _ => ("#102030")⟩ 10 20 100 80,
            PaintOp.restore ]
    ∧ (min (100 : ℚ) 80 / 2 + 10 / 2) - min 100 80 / 2 = 10 / 2 :=
  c4_circle_ring_border
    ⟨("/app"), ("/app"), fun _ => FetchResult.netErr (("x")),
      fun _ => Except.error (("x")),
      fun _ => Except.ok ⟨4, 4, fun _ _ => ("#102030")⟩⟩
    ("/app") [] none 10 20 100 80 10 ("pic.png") ("#AA0000")
    ⟨4, 4, fun _ _ => ("#102030")⟩
    (by norm_num) (by decide) rfl

/-- C6: an element whose `type` is none of `image`, `rectangle`, `text`
contributes no paint operations and raises no error: the element pass of a
list containing it is the element pass of the list without it, and the
whole render is unchanged, so the remaining elements still paint in array
order. -/
theorem c6_unknown_type_skipped (env : Env) (data : Data) (el : Element)
    (pre post : List Element)
    (h1 : el.type ≠ ("image")) (h2 : el.type ≠ ("rectangle"))
    (h3 : el.type ≠ ("text")) :
    (∀ root, elementsOps env root data (pre ++ el :: post)
      = elementsOps env root data (pre ++ post))
    ∧ ∀ (tr : TextRaster) (bg? : Option String),
        renderServer env tr (some ⟨bg?, pre ++ el :: post⟩) data
          = renderServer env tr (some ⟨bg?, pre ++ post⟩) data := by
  have hel : ∀ root, elementOps env root data el = .ok [] := by
    intro root
    unfold elementOps
    rw [if_neg h1, if_neg h2, if_neg h3]
  have hskip : ∀ root, elementsOps env root data (pre ++ el :: post)
      = elementsOps env root data (pre ++ post) := by
    intro root
    induction pre with
    | nil =>
      simp only [List.nil_append, elementsOps, hel root]
      cases hrest : elementsOps env root data post with
      | error e => simp [hrest]
      | ok more => simp [hrest]
    | cons a as ih =>
      simp only [List.cons_append, elementsOps]
      cases ha : elementOps env root data a with
      | error e => simp
      | ok ops => simp [ih]
  refine ⟨hskip, ?_⟩
  intro tr bg?
  unfold renderServer
  simp only [Option.bind_eq_bind, Option.some_bind, Option.map_some', Option.getD_some]
  cases hbg : serverBackground env bg? data with
  | error e => rfl
  | ok bg => simp [hskip env.cwd]

/-! ## Shared concrete fixtures for witnesses and counterexamples -/

/-- A rectangle element with zero corner radius. -/
def rectElement (x y w h : ℚ) (color : String) : Element :=
  { type := ("rectangle"), x := some x, y := some y, width := some w,
    height := some h, radius := some 0, color := some color }

/-- Substring occurrence over character lists (used to state that an error
message does not mention an element's name). -/
def hasSub (needle : List Char) : List Char → Bool
  | [] => charsLeadWith needle []
  | c :: rest => charsLeadWith needle (c :: rest) || hasSub needle rest

/-- An environment whose only readable local asset is the fixed fallback
background (a 32 by 16 image), and whose fetches answer 404. -/
def envOkBg : Env :=
  ⟨("/app"), ("/app"), fun _ => FetchResult.notOk 404,
    fun _ => Except.error (("x")),
    fun p => if p = ("/app/assets/background.png") then
        Except.ok ⟨32, 16, fun _ _ => ("#abcdef")⟩
      else Except.error (("ENOENT: no such file"))⟩

/-- An environment in which every local load fails. -/
def envNoLocal : Env :=
  ⟨("/app"), ("/app"), fun _ => FetchResult.netErr (("x")),
    fun _ => Except.error (("x")), fun _ => Except.error (("ENOENT"))⟩

/-- An image element naming itself `avatar` with an unreachable remote
source. -/
def elAvatarRemote : Element :=
  { type := ("image"), name := some ("avatar"),
    source := some ("http://cdn.example.com/x.png") }

/-- An image element naming itself `avatar` with an unreadable local
source. -/
def elAvatarLocal : Element :=
  { type := ("image"), name := some ("avatar"), source := some ("missing.png") }

/-- Witness for C6: a `sticker` element between two rectangles is skipped
and the render is unchanged. -/
theorem c6_unknown_type_skipped_witness :
    (elementsOps envOkBg ("/app") []
        ([rectElement 0 0 50 50 ("#FF0000")] ++ { type := ("sticker") }
          :: [rectElement 10 10 20 20 ("#00FF00")])
      = elementsOps envOkBg ("/app") []
        ([rectElement 0 0 50 50 ("#FF0000")] ++ [rectElement 10 10 20 20 ("#00FF00")]))
    ∧ renderServer envOkBg blankRaster
        (some ⟨none, [rectElement 0 0 50 50 ("#FF0000")] ++ { type := ("sticker") }
          :: [rectElement 10 10 20 20 ("#00FF00")]⟩) []
      = renderServer envOkBg blankRaster
        (some ⟨none, [rectElement 0 0 50 50 ("#FF0000")]
          ++ [rectElement 10 10 20 20 ("#00FF00")]⟩) [] :=
  ⟨(c6_unknown_type_skipped envOkBg [] { type := ("sticker") }
      [rectElement 0 0 50 50 ("#FF0000")] [rectElement 10 10 20 20 ("#00FF00")]
      (by decide) (by decide) (by decide)).1 ("/app"),
   (c6_unknown_type_skipped envOkBg [] { type := ("sticker") }
      [rectElement 0 0 50 50 ("#FF0000")] [rectElement 10 10 20 20 ("#00FF00")]
      (by decide) (by decide) (by decide)).2 blankRaster none⟩

/-! ## Background fallback lemmas -/

/-- When every local load fails, the api background resolution degrades to
the synthesized white canvas. -/
theorem apiBackground_all_fail (env : Env) (bg? : Option String) (data : Data)
    (h : ∀ p, ∃ e, env.loadLocal p = Except.error e) :
    apiBackground env bg? data = whiteImage1080 := by
  obtain ⟨e2, he2⟩ := h (fallbackBackgroundPath env)
  cases bg? with
  | none => simp [apiBackground, he2]
  | some bgStr =>
    by_cases hb : bgStr = ("")
    · simp [apiBackground, hb, he2]
    · obtain ⟨e1, he1⟩ := h
        (if isAbsolutePath (resolvePlaceholders bgStr data) then
          resolvePlaceholders bgStr data
        else joinPath env.appRoot (resolvePlaceholders bgStr data))
      simp [apiBackground, hb, he1, he2]

/-- When every local load fails, the server background resolution fails
with the fallback load's error. -/
theorem serverBackground_all_fail (env : Env) (bg? : Option String) (data : Data)
    (h : ∀ p, ∃ e, env.loadLocal p = Except.error e) :
    ∃ e, serverBackground env bg? data = Except.error e := by
  obtain ⟨e2, he2⟩ := h (fallbackBackgroundPath env)
  refine ⟨e2, ?_⟩
  cases bg? with
  | none => simp [serverBackground, he2]
  | some bgStr =>
    by_cases hb : bgStr = ("")
    · simp [serverBackground, hb, he2]
    · obtain ⟨e1, he1⟩ := h
        (if isAbsolutePath (resolvePlaceholders bgStr data) then
          resolvePlaceholders bgStr data
        else joinPath env.cwd (resolvePlaceholders bgStr data))
      simp [serverBackground, hb, he1, he2]

/-- C1 counterexample: in `src/server.js`, when the template background and
the fixed fallback asset both fail to load, the render FAILS (the fallback
`loadImage` is not guarded), so background unresolvability is fatal there,
contrary to the claim that the compositor then synthesizes a blank surface
and proceeds. -/
theorem c1_server_fallback_fatal_counterexample :
    renderServer envNoLocal blankRaster (some ⟨some ("bg.png"), []⟩) []
      = Except.error (("ENOENT")) := rfl

/-- C1 amended: the three-tier fallback exists in the serverless handler
(`src/api/render.js`): there, when the template background and the fixed
fallback both fail, the background becomes the synthesized blank white
1080 by 1080 surface and the render proceeds; in `src/server.js`, the
failure of the fixed fallback load aborts the render with an error. -/
theorem c1_background_fallback (env : Env) (data : Data) (bgs : String)
    (els : List Element) (tr : TextRaster)
    (h : ∀ p, ∃ e, env.loadLocal p = Except.error e) :
    apiBackground env (some bgs) data = whiteImage1080
    ∧ (∃ s, renderApi env tr (some ⟨some bgs, []⟩) data = Except.ok s
        ∧ s.width = 1080 ∧ s.height = 1080 ∧ s.pix (540, 540) = ("#ffffff"))
    ∧ (∃ e, renderServer env tr (some ⟨some bgs, els⟩) data = Except.error e) := by
  have hapi := apiBackground_all_fail env (some bgs) data h
  refine ⟨hapi, ?_, ?_⟩
  · simp only [renderApi]
    rw [hapi]
    refine ⟨_, rfl, rfl, rfl, ?_⟩
    show (if inClips [] (540, 540)
          && inRectB 0 0 ((1080 : Nat) : ℚ) ((1080 : Nat) : ℚ) (540, 540) then
        whiteImage1080.pix
          (((540 : ℚ) - 0) * ((whiteImage1080.width : Nat) : ℚ) / ((1080 : Nat) : ℚ))
          (((540 : ℚ) - 0) * ((whiteImage1080.height : Nat) : ℚ) / ((1080 : Nat) : ℚ))
      else initialColor) = ("#ffffff")
    rw [if_pos]
    · rfl
    · norm_num [inClips, inRectB]
  · obtain ⟨e, he⟩ := serverBackground_all_fail env (some bgs) data h
    refine ⟨e, ?_⟩
    unfold renderServer
    simp [he]

/-- Witness for C1 at a concrete environment in which every local load
fails. -/
theorem c1_background_fallback_witness :
    apiBackground envNoLocal (some ("bg.png")) [] = whiteImage1080
    ∧ (∃ s, renderApi envNoLocal blankRaster (some ⟨some ("bg.png"), []⟩) []
        = Except.ok s
        ∧ s.width = 1080 ∧ s.height = 1080 ∧ s.pix (540, 540) = ("#ffffff"))
    ∧ (∃ e, renderServer envNoLocal blankRaster
        (some ⟨some ("bg.png"), [rectElement 0 0 5 5 ("#112233")]⟩) []
        = Except.error e) :=
  c1_background_fallback envNoLocal [] ("bg.png") [rectElement 0 0 5 5 ("#112233")]
    blankRaster (fun _ => ⟨("ENOENT"), rfl⟩)

/-- C3 counterexample: an image element named `avatar` with an unreadable
local source aborts the render, but the propagated error is the
acquisition collaborator's own message, which does not contain the
element's name — the abort does not identify the element, contrary to the
claim. -/
theorem c3_error_missing_identity_counterexample :
    renderServer envOkBg blankRaster (some ⟨none, [elAvatarLocal]⟩) []
      = Except.error (("ENOENT: no such file"))
    ∧ hasSub (("avatar").data) ((("ENOENT: no such file")).data) = false := by
  constructor
  · rfl
  · decide

/-- C3 amended: once past the background step, a failure to acquire or
decode any element's resource aborts the entire render with that failure
(so no surface, partial or otherwise, is produced for the request: the
result is an error); for a remote source answered with a non-success
status, the error is `Failed to fetch image (name): status`, which does
contain the element's name — while local-read and decode failures
propagate the collaborator's error unchanged. -/
theorem c3_acquisition_failure_aborts :
    (∀ (env : Env) (root : String) (data : Data) (pre : List Element)
        (el : Element) (post : List Element) (msg : String),
      (∀ e2 ∈ pre, ∃ ops, elementOps env root data e2 = Except.ok ops) →
      elementOps env root data el = Except.error msg →
      elementsOps env root data (pre ++ el :: post) = Except.error msg)
    ∧ (∀ (env : Env) (tr : TextRaster) (data : Data) (bg? : Option String)
        (els : List Element) (img : Image) (msg : String),
      serverBackground env bg? data = Except.ok img →
      elementsOps env env.cwd data els = Except.error msg →
      renderServer env tr (some ⟨bg?, els⟩) data = Except.error msg)
    ∧ (∀ (env : Env) (root name url : String) (status : Nat),
      isRemote url = true → env.fetchUrl url = FetchResult.notOk status →
      acquireImage env root name url = Except.error (fetchErrMsg name status)
      ∧ ∃ s t, fetchErrMsg name status = s ++ (name ++ t)) := by
  refine ⟨?_, ?_, ?_⟩
  · intro env root data pre el post msg hpre hel
    induction pre with
    | nil => simp [elementsOps, hel]
    | cons a as ih =>
      obtain ⟨ops, hops⟩ := hpre a (List.mem_cons_self a as)
      have ih2 := ih (fun e2 he2 => hpre e2 (List.mem_cons_of_mem a he2))
      simp [elementsOps, hops, ih2]
  · intro env tr data bg? els img msg hbg hels
    unfold renderServer
    simp [hbg, hels]
  · intro env root name url status hrem hfetch
    constructor
    · unfold acquireImage
      rw [if_pos hrem, hfetch]
    · exact ⟨("Failed to fetch image ("), (("): ")) ++ toString status, rfl⟩

/-- Witness for C3 at concrete inputs: a remote element answered 404
aborts the pass and the whole render with the name-carrying fetch error. -/
theorem c3_acquisition_failure_aborts_witness :
    elementsOps envOkBg ("/app") [] ([] ++ elAvatarRemote :: [])
      = Except.error (fetchErrMsg ("avatar") 404)
    ∧ renderServer envOkBg blankRaster (some ⟨none, [elAvatarRemote]⟩) []
      = Except.error (fetchErrMsg ("avatar") 404)
    ∧ (acquireImage envOkBg ("/app") ("avatar") ("http://cdn.example.com/x.png")
        = Except.error (fetchErrMsg ("avatar") 404)
      ∧ ∃ s t, fetchErrMsg ("avatar") 404 = s ++ (("avatar") ++ t)) := by
  refine ⟨?_, ?_, ?_⟩
  · exact c3_acquisition_failure_aborts.1 envOkBg ("/app") [] [] elAvatarRemote []
      (fetchErrMsg ("avatar") 404) (fun e2 he2 => absurd he2 (List.not_mem_nil e2)) rfl
  · exact c3_acquisition_failure_aborts.2.1 envOkBg blankRaster [] none
      [elAvatarRemote] ⟨32, 16, fun _ _ => ("#abcdef")⟩ (fetchErrMsg ("avatar") 404)
      rfl rfl
  · exact c3_acquisition_failure_aborts.2.2 envOkBg ("/app") ("avatar")
      ("http://cdn.example.com/x.png") 404 (by decide) rfl

/-- C7: the element pass paints strictly in array order, so of two opaque
rectangles at the same bounding box, the later one's colour is the final
pixel value on the whole box: with `#FF0000` then `#00FF00` in that array
order, every point of the box ends `#00FF00`. -/
theorem c7_paint_order (env : Env) (data : Data) (bg? : Option String)
    (img : Image) (tr : TextRaster) (x y w h : ℚ) (p : Point)
    (hbg : serverBackground env bg? data = Except.ok img)
    (hp : inRectB x y w h p = true) :
    ∃ s, renderServer env tr
        (some ⟨bg?, [rectElement x y w h ("#FF0000"), rectElement x y w h ("#00FF00")]⟩)
        data = Except.ok s
      ∧ s.pix p = ("#00FF00") := by
  have hc1 : resolvePlaceholders ("#FF0000") data = ("#FF0000") :=
    resolve_no_brace _ _ (by decide)
  have hc2 : resolvePlaceholders ("#00FF00") data = ("#00FF00") :=
    resolve_no_brace _ _ (by decide)
  have hops : elementsOps env env.cwd data
      [rectElement x y w h ("#FF0000"), rectElement x y w h ("#00FF00")]
      = Except.ok [PaintOp.fillRoundedRect x y w h 0 ("#FF0000"),
          PaintOp.fillRoundedRect x y w h 0 ("#00FF00")] := by
    show Except.ok
        ([PaintOp.fillRoundedRect x y w h 0 (resolvePlaceholders ("#FF0000") data)]
          ++ ([PaintOp.fillRoundedRect x y w h 0 (resolvePlaceholders ("#00FF00") data)]
            ++ [])) = _
    rw [hc1, hc2]
    rfl
  have hr0 : roundedRectRegionB x y w h 0 p = true := by
    have he : effectiveRadius 0 w h = 0 :=
      max_eq_left (min_le_left _ _)
    simp only [roundedRectRegionB, he]
    rw [if_pos (le_refl (0 : ℚ))]
    simp [hp]
  unfold renderServer
  simp only [hbg, Option.bind_eq_bind, Option.some_bind, Option.map_some',
    Option.getD_some, hops]
  refine ⟨_, rfl, ?_⟩
  show (if inClips [] p && roundedRectRegionB x y w h 0 p then ("#00FF00")
    else _) = ("#00FF00")
  rw [if_pos]
  rw [hr0]
  rfl

/-- Witness for C7: both rectangles over the fallback background; the
centre pixel of the box is green. -/
theorem c7_paint_order_witness :
    ∃ s, renderServer envOkBg blankRaster
        (some ⟨none, [rectElement 0 0 10 10 ("#FF0000"),
          rectElement 0 0 10 10 ("#00FF00")]⟩) [] = Except.ok s
      ∧ s.pix (5, 5) = ("#00FF00") :=
  c7_paint_order envOkBg [] none ⟨32, 16, fun _ _ => ("#abcdef")⟩ blankRaster
    0 0 10 10 (5, 5) rfl (by norm_num [inRectB])

/-- C8: with an empty element sequence the finished surface is the
background alone — its dimensions are the background's natural pixel
dimensions, every point of the surface samples the background (drawn
stretched across exactly the full surface), and nothing else is painted;
when no background resolves, the serverless pipeline renders on the
synthesized 1080 by 1080 default surface. -/
theorem c8_empty_elements_background_only :
    (∀ (env : Env) (data : Data) (bg? : Option String) (img : Image)
        (tr : TextRaster),
      serverBackground env bg? data = Except.ok img →
      0 < img.width → 0 < img.height →
      ∃ s, renderServer env tr (some ⟨bg?, []⟩) data = Except.ok s
        ∧ s.width = img.width ∧ s.height = img.height
        ∧ ∀ p : Point,
            (inRectB 0 0 (img.width : ℚ) (img.height : ℚ) p = true →
              s.pix p = img.pix p.1 p.2)
            ∧ (inRectB 0 0 (img.width : ℚ) (img.height : ℚ) p = false →
              s.pix p = initialColor))
    ∧ (∀ (env : Env) (data : Data) (bg? : Option String) (tr : TextRaster),
      (∀ q, ∃ e, env.loadLocal q = Except.error e) →
      ∃ s, renderApi env tr (some ⟨bg?, []⟩) data = Except.ok s
        ∧ s.width = 1080 ∧ s.height = 1080) := by
  constructor
  · intro env data bg? img tr hbg hw hh
    have hwne : img.width ≠ 0 := Nat.pos_iff_ne_zero.mp hw
    have hhne : img.height ≠ 0 := Nat.pos_iff_ne_zero.mp hh
    have hwq : (img.width : ℚ) ≠ 0 := Nat.cast_ne_zero.mpr hwne
    have hhq : (img.height : ℚ) ≠ 0 := Nat.cast_ne_zero.mpr hhne
    unfold renderServer
    simp only [hbg, Option.bind_eq_bind, Option.some_bind, Option.map_some',
      Option.getD_some, elementsOps]
    rw [if_neg hwne, if_neg hhne]
    refine ⟨_, rfl, rfl, rfl, ?_⟩
    intro p
    constructor
    · intro hin
      show (if inClips [] p && inRectB 0 0 (img.width : ℚ) (img.height : ℚ) p then
          img.pix ((p.1 - 0) * (img.width : ℚ) / (img.width : ℚ))
            ((p.2 - 0) * (img.height : ℚ) / (img.height : ℚ))
        else initialColor) = img.pix p.1 p.2
      rw [if_pos (by simp [inClips, hin])]
      rw [sub_zero, sub_zero, mul_div_assoc, div_self hwq, mul_one,
        mul_div_assoc, div_self hhq, mul_one]
    · intro hout
      show (if inClips [] p && inRectB 0 0 (img.width : ℚ) (img.height : ℚ) p then
          img.pix ((p.1 - 0) * (img.width : ℚ) / (img.width : ℚ))
            ((p.2 - 0) * (img.height : ℚ) / (img.height : ℚ))
        else initialColor) = initialColor
      rw [if_neg (by simp [inClips, hout])]
  · intro env data bg? tr h
    have hbg := apiBackground_all_fail env bg? data h
    simp only [renderApi]
    rw [hbg]
    exact ⟨_, rfl, rfl, rfl⟩

/-- Witness for C8: the fallback background alone sizes the surface to
32 by 16 and fills it with the background's pixels; with no loadable
background at all, the serverless surface is 1080 by 1080. -/
theorem c8_empty_elements_background_only_witness :
    (∃ s, renderServer envOkBg blankRaster (some ⟨none, []⟩) [] = Except.ok s
      ∧ s.width = 32 ∧ s.height = 16
      ∧ ∀ p : Point,
          (inRectB 0 0 ((32 : Nat) : ℚ) ((16 : Nat) : ℚ) p = true →
            s.pix p = ("#abcdef"))
          ∧ (inRectB 0 0 ((32 : Nat) : ℚ) ((16 : Nat) : ℚ) p = false →
            s.pix p = initialColor))
    ∧ (∃ s, renderApi envNoLocal blankRaster (some ⟨none, []⟩) [] = Except.ok s
      ∧ s.width = 1080 ∧ s.height = 1080) :=
  ⟨c8_empty_elements_background_only.1 envOkBg [] none
      ⟨32, 16, fun _ _ => ("#abcdef")⟩ blankRaster rfl
      (by norm_num) (by norm_num),
   c8_empty_elements_background_only.2 envNoLocal [] none blankRaster
      (fun _ => ⟨("ENOENT"), rfl⟩)⟩

end RenderApi
